import Mathlib

/-
Verification development for the talktown epistemic subsystem.

The Python sources embedded here are src/evidence.py, src/person.py,
src/residence.py and src/config.py.  Modules that those files import but
that are not part of the provided sources (belief.py with the Facet /
mental-model machinery, the Game clock, relationship.py, mind.py) are
modelled from the specification; every such definition carries a doc
comment starting with "Modelled from the spec:".

Python object identity (`is`) is modelled as equality of numeric ids:
distinct live objects carry distinct ids, and an id determines the object.
Python floats are modelled as rationals.
-/

namespace Talktown

/-- Lookup in an association list (the model of a Python dict: first
binding for a key wins; `aset` below keeps keys unique). -/
def alookup {κ α : Type} [DecidableEq κ] : List (κ × α) → κ → Option α
  | [], _ => none
  | (k', v) :: rest, k => if k' = k then some v else alookup rest k

/-- Update or insert a binding in an association list (model of
`d[k] = v` on a Python dict). -/
def aset {κ α : Type} [DecidableEq κ] : List (κ × α) → κ → α → List (κ × α)
  | [], k, v => [(k, v)]
  | (k', v') :: rest, k, v =>
    if k' = k then (k, v) :: rest else (k', v') :: aset rest k v

/-! ## The game clock and event counter -/

/-- The simulation-global clock reachable from any agent as `source.game`.
Modelled from the spec: the Game class is not among the provided source
files; per the spec the clock carries the current date, ordinal date and
"a process-wide counter owned by the clock/scheduler collaborator, exposed
to the evidence layer as a single next-event-number operation". -/
structure Game where
  date : String
  ordinalDate : Nat
  eventNumber : Nat
  deriving Repr, DecidableEq

/-- Modelled from the spec: `Game.assign_event_number` consumes the next
value from the global monotonic counter; it "must be called exactly once
per Evidence construction, never retried or reused". -/
def Game.assignEventNumber (g : Game) : Nat × Game :=
  (g.eventNumber + 1, { g with eventNumber := g.eventNumber + 1 })

/-! ## Evidence (src/evidence.py) -/

/-- The `source` argument of `PieceOfEvidence.__init__`: a person carrying
a current location (`source.location`, possibly `None`) and the game clock.
Object identity is modelled by `id`. -/
structure SourceAgent where
  id : Nat
  location : Option Nat
  deriving Repr, DecidableEq

/-- The `subject` argument of evidence constructors: a person (with its
current location) or a place, dispatched on `subject.type` exactly as
`Observation.__init__` does (src/evidence.py lines 97 and 103). -/
inductive EvidenceSubject
  | person (id : Nat) (location : Option Nat)
  | residence (id : Nat)
  | business (id : Nat)
  deriving Repr, DecidableEq

/-- A `PieceOfEvidence` record (src/evidence.py lines 4-26).  `source`,
`recipient` and `eavesdropper` are person ids; `recipient` and
`eavesdropper` stay `none` unless a subclass constructor overwrites them.
The `beliefs_evidenced` set and `adjusted_strength` post-hoc field play no
role in the claims below and are omitted. -/
structure Evid where
  etype : String
  location : Option Nat
  time : String
  ordinalDate : Nat
  eventNumber : Nat
  subject : EvidenceSubject
  source : Option Nat
  recipient : Option Nat
  eavesdropper : Option Nat
  deriving Repr, DecidableEq

/-- `PieceOfEvidence.__init__` (src/evidence.py lines 4-26): stamps the
location and clock data from `source` and consumes a fresh event number
from the global counter. -/
def mkPieceOfEvidence (etype : String) (subject : EvidenceSubject)
    (src : SourceAgent) (g : Game) : Evid × Game :=
  let (n, g') := g.assignEventNumber
  ({ etype := etype, location := src.location, time := g.date,
     ordinalDate := g.ordinalDate, eventNumber := n, subject := subject,
     source := some src.id, recipient := none, eavesdropper := none }, g')

/-- `Reflection.__init__` (src/evidence.py lines 80-88): runs the
superclass constructor (which consumes an event number) and then asserts
`subject is source`.  The subject is identical to the source exactly when
it is a person with the same id, and then it also carries the same
location, being the same object. -/
def mkReflection (subject : EvidenceSubject) (src : SourceAgent)
    (g : Game) : Except String Evid × Game :=
  let (e, g') := mkPieceOfEvidence "reflection" subject src g
  if subject = EvidenceSubject.person src.id src.location then (Except.ok e, g')
  else (Except.error "AssertionError: attempted to reflect about someone who is not themself", g')

/-- `Observation.__init__` (src/evidence.py lines 91-108): after the
superclass constructor, asserts `source.location is subject.location` for
a person subject, and `source.location is subject` for a residence or
business subject. -/
def mkObservation (subject : EvidenceSubject) (src : SourceAgent)
    (g : Game) : Except String Evid × Game :=
  let (e, g') := mkPieceOfEvidence "observation" subject src g
  match subject with
  | EvidenceSubject.person _ subjLoc =>
    if src.location = subjLoc then (Except.ok e, g')
    else (Except.error "AssertionError: attempted to observe someone in a different location", g')
  | EvidenceSubject.residence pid =>
    if src.location = some pid then (Except.ok e, g')
    else (Except.error "AssertionError: attempted to observe a place without being located there", g')
  | EvidenceSubject.business pid =>
    if src.location = some pid then (Except.ok e, g')
    else (Except.error "AssertionError: attempted to observe a place without being located there", g')

/-- `Statement.__init__` (src/evidence.py lines 139-148): a piece of
evidence whose `recipient` field is overwritten with the listener. -/
def mkStatement (subject : EvidenceSubject) (src : SourceAgent)
    (recipient : Nat) (g : Game) : Evid × Game :=
  let (e, g') := mkPieceOfEvidence "statement" subject src g
  ({ e with recipient := some recipient }, g')

/-- `Declaration.__init__` (src/evidence.py lines 151-160). -/
def mkDeclaration (subject : EvidenceSubject) (src : SourceAgent)
    (recipient : Nat) (g : Game) : Evid × Game :=
  let (e, g') := mkPieceOfEvidence "declaration" subject src g
  ({ e with recipient := some recipient }, g')

/-- `Eavesdropping.__init__` (src/evidence.py lines 163-173). -/
def mkEavesdropping (subject : EvidenceSubject) (src : SourceAgent)
    (recipient eavesdropper : Nat) (g : Game) : Evid × Game :=
  let (e, g') := mkPieceOfEvidence "eavesdropping" subject src g
  ({ e with recipient := some recipient, eavesdropper := some eavesdropper }, g')

/-- A whole-run sequence of `PieceOfEvidence` constructions threaded
through the single global game state, in creation order. -/
def createRun : List (String × EvidenceSubject × SourceAgent) → Game → List Evid × Game
  | [], g => ([], g)
  | (t, s, src) :: rest, g =>
    let (e, g') := mkPieceOfEvidence t s src g
    let (es, g'') := createRun rest g'
    (e :: es, g'')

/-! ## Belief facets and mental models

belief.py (the `Belief.Facet`, `PersonMentalModel`, `DwellingPlaceModel`
and `BusinessMentalModel` classes imported by person.py) and mind.py are
not among the provided source files, so their data is modelled from the
spec and every query function over it embeds the person.py code that
reads it. -/

/-- Modelled from the spec: one Belief.Facet, "the per-(owner, subject,
feature) aggregation unit: holds a currently-asserted value, a strength
score derived from its supporting evidence, and an accuracy flag", plus
"the ordered list of all Evidence records that have ever contributed to or
superseded this Facet's value, oldest first".  A Facet is a `str`
subclass, so `value` is its string content; `subject` is the id of the
entity the facet is about. -/
structure Facet where
  subject : Nat
  featureType : String
  value : String
  strength : Rat
  accurate : Bool
  evidence : List Evid
  deriving Repr, DecidableEq

/-- Python truthiness of a Belief.Facet (a `str` subclass): falsy exactly
when it is the empty string, the unknown marker. -/
def Facet.truthy (f : Facet) : Bool := f.value != ""

/-- Modelled from the spec: a Mental Model is the per-(owner, subject)
"mapping from feature_type to current Belief Facet" (§3); the per-feature
attribute reads in `Person.get_knowledge_about_person` (src/person.py
lines 800-898) and `Person.get_knowledge_about_place` (lines 900-913)
become lookups in this mapping.  `subjectType` records the `type` tag of
the subject entity ("person", "residence" or "business"). -/
structure MentalModel where
  subjectType : String
  facets : List (String × Facet)
  deriving Repr, DecidableEq

/-- The slice of a Person object's state read and written by the embedded
methods (src/person.py).  `relationships` maps another person's id to the
`interacted_this_timestep` flag of the Relationship object stored for
them; `salience` is `salience_of_other_people`; `mentalModels` is
`mind.mental_models` keyed by subject id; `allBeliefFacets` is
`all_belief_facets` (a Python set, modelled as a list in its iteration
order); `homeResidents` are the ids in `home.residents`. -/
structure PersonState where
  id : Nat
  name : String
  age : Nat
  male : Bool
  female : Bool
  location : Option Nat
  homeResidents : List Nat
  relationships : List (Nat × Bool)
  friends : List Nat
  bestFriend : Option Nat
  extroversion : Rat
  openness : Rat
  mentalModels : List (Nat × MentalModel)
  allBeliefFacets : List Facet
  salience : List (Nat × Rat)
  deriving Repr, DecidableEq

/-- A reference to an entity as passed to the query API: its id together
with its `type` tag. -/
structure EntityRef where
  id : Nat
  etype : String
  deriving Repr, DecidableEq

/-- `Person.get_knowledge_about_person` (src/person.py lines 800-898):
`None` if this person holds no mental model of the other person (lines
802-803), otherwise the current Facet the mental model stores for the
given feature type; an unrecognized feature type falls off the
if/elif chain and yields `None`. -/
def getKnowledgeAboutPerson (p : PersonState) (other : Nat)
    (featureType : String) : Option Facet :=
  match alookup p.mentalModels other with
  | none => none
  | some mm => alookup mm.facets featureType

/-- `Person.get_knowledge_about_place` (src/person.py lines 900-913): same
shape as `get_knowledge_about_person` for a residence or business. -/
def getKnowledgeAboutPlace (p : PersonState) (place : Nat)
    (featureType : String) : Option Facet :=
  match alookup p.mentalModels place with
  | none => none
  | some mm => alookup mm.facets featureType

/-- `Person.belief` (src/person.py lines 915-928): `None` for a `None`
entity or an entity without a mental model, otherwise dispatch on the
entity's `type` tag; an entity whose tag is none of "person", "residence"
or "business" falls off the chain and yields `None`. -/
def belief (p : PersonState) (entity : Option EntityRef)
    (featureType : String) : Option Facet :=
  match entity with
  | none => none
  | some e =>
    if (alookup p.mentalModels e.id).isNone then none
    else if e.etype = "person" then getKnowledgeAboutPerson p e.id featureType
    else if e.etype = "residence" ∨ e.etype = "business" then
      getKnowledgeAboutPlace p e.id featureType
    else none

/-- `Person.accurate_belief` (src/person.py lines 930-936):
`belief_facet and belief_facet.accurate`, where a facet is truthy iff it
is not the empty string. -/
def accurateBelief (p : PersonState) (entity : Option EntityRef)
    (featureType : String) : Bool :=
  match belief p entity featureType with
  | some f => f.truthy && f.accurate
  | none => false

/-- `Person.inaccurate_belief` (src/person.py lines 938-947). -/
def inaccurateBelief (p : PersonState) (entity : Option EntityRef)
    (featureType : String) : Bool :=
  match belief p entity featureType with
  | some f => f.truthy && !f.accurate
  | none => false

/-- The list `all_my_sources` built by `Person.sources` (src/person.py
lines 954-964) before the sort on line 965: the sources of all evidence
pieces of the facets about the entity (restricted to the feature type when
one is given), in facet-iteration order and, within a facet, in the order
of its evidence list; pieces with a falsy (`None`) source are skipped. -/
def collectedSources (p : PersonState) (entity : Option Nat)
    (featureType : Option String) : List Nat :=
  let relevant :=
    match featureType with
    | some ft =>
      p.allBeliefFacets.filter
        (fun (f : Facet) => some f.subject == entity && f.featureType == ft)
    | none => p.allBeliefFacets.filter (fun (f : Facet) => some f.subject == entity)
  (relevant.map (fun (f : Facet) => f.evidence.filterMap (fun piece => piece.source))).flatten

/-- Stable descending insertion by a Nat-valued key: `x` goes in front of
the first element whose key is less than or equal to its own, so elements
with equal keys keep their original relative order. -/
def orderedInsertDesc (key : Nat → Nat) (x : Nat) : List Nat → List Nat
  | [] => [x]
  | y :: ys => if key y ≤ key x then x :: y :: ys else y :: orderedInsertDesc key x ys

/-- Stable descending insertion sort by a Nat-valued key.  Python
`list.sort(key=..., reverse=True)` is a stable sort and is extensionally
this function on the key values it actually receives. -/
def sortDescBy (key : Nat → Nat) : List Nat → List Nat
  | [] => []
  | x :: xs => orderedInsertDesc key x (sortDescBy key xs)

/-- The sort on src/person.py line 965:
`all_my_sources.sort(key=lambda source: all_my_sources.count(source), reverse=True)`.
CPython's `list.sort` detaches the list's elements before evaluating the
key function ("the list is temporarily made empty, so that mutations
performed by comparison functions cannot affect the list being sorted",
listobject.c) and only reattaches them afterwards, so while the keys are
computed the captured `all_my_sources` is the empty list and every key
evaluates to `[].count(source) = 0`.  A stable sort on all-equal keys is
the identity.  The embedding spells the key out against the emptied
list. -/
def pySortByOwnCountDesc (l : List Nat) : List Nat :=
  sortDescBy (fun s => ([] : List Nat).count s) l

/-- `Person.sources` (src/person.py lines 949-966). -/
def sources (p : PersonState) (entity : Option Nat)
    (featureType : Option String) : List Nat :=
  pySortByOwnCountDesc (collectedSources p entity featureType)

/-- `Person.top_source` (src/person.py lines 968-975): the first ranked
source, or `None` when there are none (`IndexError` branch). -/
def topSource (p : PersonState) (entity : Option Nat)
    (featureType : Option String) : Option Nat :=
  (sources p entity featureType).head?

/-- The ranking the spec describes for `sources`: the collected sources
ordered most-frequent-first by their number of appearances among the
collected evidence, ties broken by the stable insertion order.  This
definition follows the wording of the spec, for comparison against the
embedded code. -/
def sourcesRankedBySpec (p : PersonState) (entity : Option Nat)
    (featureType : Option String) : List Nat :=
  let col := collectedSources p entity featureType
  sortDescBy (fun s => col.count s) col

/-- `Person.update_salience_of` (src/person.py lines 2220-2226):
`salience_of_other_people[entity] = max(0.0, salience_of_other_people.get(entity, 0.0) + change)`. -/
def updateSalienceOf (p : PersonState) (entity : Nat) (change : Rat) : PersonState :=
  let old : Rat := (alookup p.salience entity).getD 0
  { p with salience := aset p.salience entity (max 0 (old + change)) }

/-- Every stored salience value is non-negative (decidably). -/
def salienceAllNonneg (p : PersonState) : Bool :=
  p.salience.all (fun pr => decide (0 ≤ pr.2))

/-! ## Evidence ingestion (Belief.Facet.consider_new_evidence) -/

/-- Modelled from the spec: the numeric weighting of evidence is an
explicitly open question ("the source does not specify the exact numeric
form of the weight of new evidence used to decide supplanting ... expose
it as a single pluggable scoring function"), so the initial strength, the
bounded reinforcement increment, the supplanting weight and the weakening
applied to a surviving contradicted belief are pluggable parameters. -/
structure BeliefParams where
  initialStrength : Evid → Rat
  reinforce : Rat → Evid → Rat
  weightOf : Evid → Rat
  weaken : Rat → Evid → Rat

/-- Replace a facet in the owner's `all_belief_facets` collection by its
updated state (the Python object is mutated in place). -/
def replaceFacet (l : List Facet) (old upd : Facet) : List Facet :=
  l.map (fun f => if f == old then upd else f)

/-- Modelled from the spec (§4.2 Ingest, belief.py not provided):
`consider_new_evidence(feature_type, proposed_value, new_evidence)` on the
owner's mental model of `subject`.  No facet yet: create one holding the
proposed value with `evidence = [new_evidence]` and register it in the
owner's facet collection.  Same value: reinforce, appending the evidence.
Different value: supplant when the new evidence's weight exceeds the
current strength, otherwise log the contradiction and keep the value,
slightly weakened.  Accuracy is recomputed against live ground truth by
the surrounding world, so the caller passes the accuracy of the proposed
value. -/
def considerNewEvidence (bp : BeliefParams) (p : PersonState) (subject : Nat)
    (featureType value : String) (acc : Bool) (ev : Evid) : PersonState :=
  let mm := (alookup p.mentalModels subject).getD { subjectType := "person", facets := [] }
  match alookup mm.facets featureType with
  | none =>
    let fnew : Facet :=
      { subject := subject, featureType := featureType, value := value,
        strength := bp.initialStrength ev, accurate := acc, evidence := [ev] }
    { p with
      mentalModels := aset p.mentalModels subject { mm with facets := aset mm.facets featureType fnew },
      allBeliefFacets := p.allBeliefFacets ++ [fnew] }
  | some f =>
    if f.value = value then
      let f' : Facet :=
        { f with
          strength := bp.reinforce f.strength ev,
          evidence := f.evidence ++ [ev] }
      { p with
        mentalModels := aset p.mentalModels subject { mm with facets := aset mm.facets featureType f' },
        allBeliefFacets := replaceFacet p.allBeliefFacets f f' }
    else if f.strength < bp.weightOf ev then
      let f' : Facet :=
        { subject := subject, featureType := featureType, value := value,
          strength := bp.weightOf ev, accurate := acc, evidence := f.evidence ++ [ev] }
      { p with
        mentalModels := aset p.mentalModels subject { mm with facets := aset mm.facets featureType f' },
        allBeliefFacets := replaceFacet p.allBeliefFacets f f' }
    else
      let f' : Facet :=
        { f with
          strength := bp.weaken f.strength ev,
          evidence := f.evidence ++ [ev] }
      { p with
        mentalModels := aset p.mentalModels subject { mm with facets := aset mm.facets featureType f' },
        allBeliefFacets := replaceFacet p.allBeliefFacets f f' }

/-! ## The world: the heap of live person and place objects -/

/-- The slice of the simulation heap the embedded methods touch: the
people by id, each place's `people_here_now` by place id, and the global
game clock. -/
structure World where
  people : List (Nat × PersonState)
  placePeople : List (Nat × List Nat)
  game : Game
  deriving Repr, DecidableEq

/-- A person state used only to make heap lookups total; the embedded
methods are only ever applied to ids present in the world. -/
def defaultPersonState : PersonState :=
  { id := 0, name := "", age := 0, male := false, female := false,
    location := none, homeResidents := [], relationships := [],
    friends := [], bestFriend := none, extroversion := 0, openness := 0,
    mentalModels := [], allBeliefFacets := [], salience := [] }

def getPerson (w : World) (pid : Nat) : PersonState :=
  (alookup w.people pid).getD defaultPersonState

def updPerson (w : World) (pid : Nat) (f : PersonState → PersonState) : World :=
  { w with people := aset w.people pid (f (getPerson w pid)) }

/-- `location.people_here_now` for an optional location. -/
def peopleAt (w : World) (loc : Option Nat) : List Nat :=
  match loc with
  | none => []
  | some l => (alookup w.placePeople l).getD []

/-- `PersonMentalModel(owner=..., subject=..., observation_or_reflection=None)`
guarded by `if person_in_question not in ....mind.mental_models`
(src/person.py lines 2070-2073 and 2086-2087).  Modelled from the spec:
belief.py is not provided; per §4.3 a mental model "is created lazily on
first evidence about its subject", here with no facets yet. -/
def ensureMentalModelOf (w : World) (ownerId subjectId : Nat) : World :=
  updPerson w ownerId (fun p =>
    if (alookup p.mentalModels subjectId).isNone then
      { p with
        mentalModels := aset p.mentalModels subjectId { subjectType := "person", facets := [] } }
    else p)

/-! ## people_i_believe_are_named (src/person.py lines 2249-2261) -/

/-- Evaluating `p.subject` where `p` ranges over the keys of
`self.mind.mental_models`.  Iterating a Python dict yields its keys, so
`p` is the entity the mental model is about — a Person, DwellingPlace or
Business object — and none of these classes defines an attribute named
`subject` (person.py and residence.py define none; business is not among
the provided sources and per the spec data model a business is likewise a
plain entity).  The access therefore raises AttributeError. -/
def entityAttrSubject (etype : String) : Except String EntityRef :=
  Except.error ("AttributeError: " ++ etype ++ " object has no attribute subject")

/-- The comprehension
`[p for p in self.mind.mental_models if p.subject.type == 'person']`
(src/person.py line 2251), evaluated left to right: the first key raises
when its `subject` attribute is evaluated. -/
def filterKeysBySubjectTypePerson :
    List (Nat × MentalModel) → Except String (List Nat)
  | [] => Except.ok []
  | (k, mm) :: rest =>
    match entityAttrSubject mm.subjectType with
    | Except.error e => Except.error e
    | Except.ok subj =>
      match filterKeysBySubjectTypePerson rest with
      | Except.error e => Except.error e
      | Except.ok tl => Except.ok (if subj.etype = "person" then k :: tl else tl)

/-- Python truthiness of an optional-string argument defaulting to `None`:
truthy when supplied and not the empty string. -/
def pyTruthyOptStr (o : Option String) : Bool := o.getD "" != ""

/-- `self.belief(p, ft) == name`: `belief` returns `None` or a str-valued
Facet, and Python `==` against a string compares the facet's string
content (`None == name` is `False`). -/
def beliefValueEq (p : PersonState) (pid : Nat) (ft v : String) : Bool :=
  match belief p (some { id := pid, etype := "person" }) ft with
  | some f => f.value == v
  | none => false

/-- `Person.people_i_believe_are_named` (src/person.py lines 2249-2261).
The initial comprehension evaluates `p.subject.type` on each dict key and
therefore raises as soon as the owner holds any mental model; with no
mental models it yields `[]` and the optional filters run on the empty
list. -/
def peopleIBelieveAreNamed (w : World) (p : PersonState)
    (firstName lastName sex : Option String) : Except String (List Nat) :=
  match filterKeysBySubjectTypePerson p.mentalModels with
  | Except.error e => Except.error e
  | Except.ok ms0 =>
    let ms1 := if pyTruthyOptStr firstName then
        ms0.filter (fun pid => beliefValueEq p pid "first name" (firstName.getD ""))
      else ms0
    let ms2 := if pyTruthyOptStr lastName then
        ms1.filter (fun pid => beliefValueEq p pid "last name" (lastName.getD ""))
      else ms1
    let ms3 :=
      if pyTruthyOptStr sex then
        if sex.getD "" = "m" then ms2.filter (fun pid => (getPerson w pid).male)
        else if sex.getD "" = "f" then ms2.filter (fun pid => (getPerson w pid).female)
        else ms2
      else ms2
    Except.ok ms3

/-! ## Information exchange (src/person.py lines 2066-2114) -/

/-- Resolved outcomes of the random draws a conversational turn makes:
`featureRoll dir ft` is the `random.random()` drawn for feature `ft` in
direction `dir` (0: self talks, 1: the interlocutor talks), `eavesRoll`
the eavesdropping draw, and `eavesPick` the index `random.choice` picks
into the list of people in earshot. -/
structure ExchangeOracle where
  featureRoll : Nat → String → Rat
  eavesRoll : Nat → Rat
  eavesPick : Nat → Nat

/-- The configuration attributes the transmission protocols read; the
config module among the provided sources does not define them, so they
are carried as plain data (§6: "tunable probability/decay-rate tables
from configuration"). -/
structure SimConfig where
  chanceSomeoneEavesdrops : Rat
  featureProbs : List (String × Rat)
  instigateFloor : Rat
  instigateCap : Rat
  extroFloor : Rat
  extroCap : Rat
  opennessFloor : Rat
  opennessCap : Rat
  friendshipComp : Rat
  bestFriendComp : Rat
  deriving Repr, DecidableEq

/-- Observable steps of an information exchange: the evidence objects
constructed, and each `consider_new_evidence` call in order. -/
inductive ExchangeEvent
  | created (e : Evid)
  | ingested (owner : Nat) (featureType : String) (value : String) (e : Evid)
  deriving Repr, DecidableEq

/-- The `person_in_question` as an evidence subject: a person with their
current location. -/
def subjRefOfPerson (w : World) (qId : Nat) : EvidenceSubject :=
  EvidenceSubject.person qId (getPerson w qId).location

/-- One iteration of the feature loop (src/person.py lines 2090-2114) for
a fixed direction: if the roll passes and the talker currently holds a
truthy belief facet for this feature of the person in question, the
listener considers the statement, the talker considers the declaration
(self-reinforcement), and the eavesdropper, if one was drawn, considers
the eavesdropping — in that order.  `acc` supplies the ground-truth
accuracy of a conveyed value (recomputed against the live world). -/
def exchangeFeatureStep (bp : BeliefParams) (acc : Nat → String → String → Bool)
    (o : ExchangeOracle) (dir talkerId listenerId qId : Nat)
    (stmtE declE : Evid) (eav : Option (Nat × Evid))
    (st : World × List ExchangeEvent) (fp : String × Rat) :
    World × List ExchangeEvent :=
  let w := st.1
  let log := st.2
  if o.featureRoll dir fp.1 < fp.2 then
    match getKnowledgeAboutPerson (getPerson w talkerId) qId fp.1 with
    | some facet =>
      if facet.truthy then
        let v := facet.value
        let w1 := updPerson w listenerId
          (fun lp => considerNewEvidence bp lp qId fp.1 v (acc qId fp.1 v) stmtE)
        let w2 := updPerson w1 talkerId
          (fun tp => considerNewEvidence bp tp qId fp.1 v (acc qId fp.1 v) declE)
        match eav with
        | some ed =>
          let w3 := updPerson w2 ed.1
            (fun ep => considerNewEvidence bp ep qId fp.1 v (acc qId fp.1 v) ed.2)
          (w3, log ++ [ExchangeEvent.ingested listenerId fp.1 v stmtE,
                       ExchangeEvent.ingested talkerId fp.1 v declE,
                       ExchangeEvent.ingested ed.1 fp.1 v ed.2])
        | none =>
          (w2, log ++ [ExchangeEvent.ingested listenerId fp.1 v stmtE,
                       ExchangeEvent.ingested talkerId fp.1 v declE])
      else (w, log)
    | none => (w, log)
  else (w, log)

/-- The per-direction setup of `Person._exchange_information_about_a_person`
(src/person.py lines 2074-2089): construct the Statement (talker to
listener) and the Declaration — the code passes `recipient=listener` for
both (lines 2077-2078) — and optionally draw an eavesdropper from the
people at the method receiver\x27s location minus talker and listener,
creating the Eavesdropping evidence and the eavesdropper\x27s mental model
of the person in question.  Returns the two (or three) evidence objects,
the drawn eavesdropper, and the world plus creation log. -/
def directionPieces (cfg : SimConfig) (o : ExchangeOracle) (dir : Nat)
    (w : World) (selfId talkerId listenerId qId : Nat) :
    (Evid × Evid) × Option (Nat × Evid) × (World × List ExchangeEvent) :=
  let talkerLoc := (getPerson w talkerId).location
  let sr := mkStatement (subjRefOfPerson w qId)
    { id := talkerId, location := talkerLoc } listenerId w.game
  let dr := mkDeclaration (subjRefOfPerson w qId)
    { id := talkerId, location := talkerLoc } listenerId sr.2
  let w1 : World := { w with game := dr.2 }
  let earshot := (peopleAt w1 (getPerson w1 selfId).location).filter
    (fun pid => pid != talkerId && pid != listenerId)
  if earshot.isEmpty then
    ((sr.1, dr.1), none,
      (w1, [ExchangeEvent.created sr.1, ExchangeEvent.created dr.1]))
  else if o.eavesRoll dir < cfg.chanceSomeoneEavesdrops then
    let eavId := earshot.getD (o.eavesPick dir % earshot.length) 0
    let er := mkEavesdropping (subjRefOfPerson w1 qId)
      { id := talkerId, location := talkerLoc } listenerId eavId w1.game
    let w2 := ensureMentalModelOf { w1 with game := er.2 } eavId qId
    ((sr.1, dr.1), some (eavId, er.1),
      (w2, [ExchangeEvent.created sr.1, ExchangeEvent.created dr.1,
        ExchangeEvent.created er.1]))
  else
    ((sr.1, dr.1), none,
      (w1, [ExchangeEvent.created sr.1, ExchangeEvent.created dr.1]))

/-- One direction of `Person._exchange_information_about_a_person`
(src/person.py lines 2074-2114): the setup above followed by the feature
loop. -/
def exchangeDirection (cfg : SimConfig) (bp : BeliefParams)
    (acc : Nat → String → String → Bool) (o : ExchangeOracle) (dir : Nat)
    (w : World) (selfId talkerId listenerId qId : Nat) :
    World × List ExchangeEvent :=
  let pieces := directionPieces cfg o dir w selfId talkerId listenerId qId
  cfg.featureProbs.foldl
    (exchangeFeatureStep bp acc o dir talkerId listenerId qId
      pieces.1.1 pieces.1.2 pieces.2.1)
    pieces.2.2

/-- `Person._exchange_information_about_a_person` (src/person.py lines
2066-2114): make sure both parties hold a mental model of the person in
question, then run the two conversational directions in order (`for
me_or_interlocutor in (self, interlocutor)`). -/
def exchangeInformationAboutAPerson (cfg : SimConfig) (bp : BeliefParams)
    (acc : Nat → String → String → Bool) (o : ExchangeOracle)
    (w : World) (selfId interId qId : Nat) : World × List ExchangeEvent :=
  let w1 := ensureMentalModelOf w selfId qId
  let w2 := ensureMentalModelOf w1 interId qId
  let r0 := exchangeDirection cfg bp acc o 0 w2 selfId selfId interId qId
  let r1 := exchangeDirection cfg bp acc o 1 r0.1 selfId interId selfId qId
  (r1.1, r0.2 ++ r1.2)

/-! ## Socializing (src/person.py lines 1998-2029, 2116-2170) -/

/-- Observable steps of a `socialize` call: forming an acquaintance,
progressing a relationship, and invoking `_exchange_information` with an
interlocutor (whose internals are embedded above as
`exchangeInformationAboutAPerson`). -/
inductive SocEvent
  | acquaintanceFormed (other : Nat)
  | progressedRelationship (other : Nat)
  | exchangedInformation (other : Nat)
  deriving Repr, DecidableEq

/-- The person the event interacts with. -/
def socPartner : SocEvent → Nat
  | SocEvent.acquaintanceFormed other => other
  | SocEvent.progressedRelationship other => other
  | SocEvent.exchangedInformation other => other

/-- The `random.random()` draw `_decide_to_instigate_social_interaction`
makes for each co-located person. -/
structure SocializeOracle where
  instigateRoll : Nat → Rat

/-- The floor/cap clamping pattern used throughout person.py:
`if x < floor: x = floor elif x > cap: x = cap`. -/
def clampR (lo cap x : Rat) : Rat := if x < lo then lo else if x > cap then cap else x

/-- `Person._get_extroversion_component_to_chance_of_social_interaction`
(src/person.py lines 2142-2150). -/
def extroversionComponent (cfg : SimConfig) (p : PersonState) : Rat :=
  clampR cfg.extroFloor cfg.extroCap p.extroversion

/-- `Person._get_openness_component_to_chance_of_social_interaction`
(src/person.py lines 2152-2160). -/
def opennessComponent (cfg : SimConfig) (p : PersonState) : Rat :=
  clampR cfg.opennessFloor cfg.opennessCap p.openness

/-- `Person._get_friendship_component_to_chance_of_social_interaction`
(src/person.py lines 2162-2170). -/
def friendshipComponent (cfg : SimConfig) (p : PersonState) (otherId : Nat) : Rat :=
  (if otherId ∈ p.friends then cfg.friendshipComp else 0) +
  (if p.bestFriend = some otherId then cfg.bestFriendComp else 0)

/-- The chance computed by
`Person._decide_to_instigate_social_interaction` (src/person.py lines
2116-2136): zero for oneself or a child under five, otherwise the clamped
sum of the extroversion component and the friendship (known person) or
openness (stranger) component. -/
def chanceOfInstigating (cfg : SimConfig) (w : World) (selfP : PersonState)
    (otherId : Nat) : Rat :=
  if otherId = selfP.id ∨ (getPerson w otherId).age < 5 then 0
  else
    let e := extroversionComponent cfg selfP
    let f := if (alookup selfP.relationships otherId).isNone
      then opennessComponent cfg selfP
      else friendshipComponent cfg selfP otherId
    clampR cfg.instigateFloor cfg.instigateCap (e + f)

/-- `Person._decide_to_instigate_social_interaction` (src/person.py lines
2116-2140): `random.random() < chance`. -/
def decideToInstigate (cfg : SimConfig) (w : World) (selfP : PersonState)
    (otherId : Nat) (roll : Rat) : Bool :=
  roll < chanceOfInstigating cfg w selfP otherId

/-- The shared body of both loops in `Person.socialize` (src/person.py
lines 2004-2014 and 2019-2029): form an Acquaintance if none exists, and
if the pair has not yet interacted this timestep, progress the
relationship and — in the full-fidelity case — exchange information.
Acquaintance and Relationship.progress_relationship live in
relationship.py, which is not among the provided sources; modelled from
the spec and the guarding comment ("Make sure they didn't already
interact this timestep"): a fresh Acquaintance has not yet interacted,
and progressing the relationship records the interaction; its
spark/charge bookkeeping is outside the epistemic engine. -/
def socializeInteractBody (missing : Nat) (st : World × List SocEvent)
    (selfId pid : Nat) : World × List SocEvent :=
  let w := st.1
  let selfP := getPerson w selfId
  let acq : Bool := (alookup selfP.relationships pid).isNone
  let selfP1 := if acq then
      { selfP with relationships := aset selfP.relationships pid false }
    else selfP
  let acqEvs : List SocEvent := if acq then [SocEvent.acquaintanceFormed pid] else []
  if (alookup selfP1.relationships pid).getD false = false then
    let p2 := { selfP1 with relationships := aset selfP1.relationships pid true }
    (updPerson w selfId (fun _ => p2),
      st.2 ++ (acqEvs ++ [SocEvent.progressedRelationship pid] ++
        (if missing = 1 then [SocEvent.exchangedInformation pid] else [])))
  else (w, st.2 ++ acqEvs)

/-- One iteration of the first `socialize` loop (src/person.py lines
2002-2014): interact only if `_decide_to_instigate_social_interaction`
returns true for this co-located person. -/
def socializeLoop1Step (cfg : SimConfig) (o : SocializeOracle)
    (missing selfId : Nat) (st : World × List SocEvent) (pid : Nat) :
    World × List SocEvent :=
  if decideToInstigate cfg st.1 (getPerson st.1 selfId) pid (o.instigateRoll pid)
  then socializeInteractBody missing st selfId pid
  else st

/-- `Person.socialize` (src/person.py lines 1998-2029): raise when the
person has no current location; otherwise run the instigation-gated loop
over the people now at that location, then the unconditional loop over
the other residents of the person's home ("cheat to simulate socializing
between people that live together, regardless of where they are truly
located"). -/
def socialize (cfg : SimConfig) (o : SocializeOracle) (w : World)
    (selfId : Nat) (missingTimesteps : Nat) :
    Except String (World × List SocEvent) :=
  let selfP := getPerson w selfId
  match selfP.location with
  | none => Except.error (selfP.name ++ " tried to socialize, but they have no location currently.")
  | some loc =>
    let here := (alookup w.placePeople loc).getD []
    let after1 := here.foldl (socializeLoop1Step cfg o missingTimesteps selfId)
      (w, ([] : List SocEvent))
    let residents := (getPerson after1.1 selfId).homeResidents.filter (fun pid => pid != selfId)
    let after2 := residents.foldl
      (fun st pid => socializeInteractBody missingTimesteps st selfId pid) after1
    Except.ok after2

/-- Whether a constructor call completed without an assertion failure. -/
def constructed (r : Except String Evid) : Bool :=
  match r with
  | Except.ok _ => true
  | Except.error _ => false

/-- The co-location condition `Observation.__init__` asserts, as the
claim states it: `source.location is subject.location` for a person
subject, `source.location is subject` for a residence or business. -/
def observationInvariant (subject : EvidenceSubject) (src : SourceAgent) : Prop :=
  match subject with
  | EvidenceSubject.person _ subjLoc => src.location = subjLoc
  | EvidenceSubject.residence pid => src.location = some pid
  | EvidenceSubject.business pid => src.location = some pid

/-- Evidence supplied by source 7, then twice by source 8, about person
100. -/
def evidC1A : Evid :=
  { etype := "statement", location := some 1, time := "day 1", ordinalDate := 10,
    eventNumber := 1, subject := EvidenceSubject.person 100 (some 1),
    source := some 7, recipient := some 5, eavesdropper := none }

def evidC1B : Evid := { evidC1A with eventNumber := 2, source := some 8 }

def evidC1C : Evid := { evidC1A with eventNumber := 3, source := some 8 }

def facetC1 : Facet :=
  { subject := 100, featureType := "hair color", value := "brown",
    strength := 1, accurate := true, evidence := [evidC1A, evidC1B, evidC1C] }

def personC1 : PersonState :=
  { defaultPersonState with
    id := 5,
    mentalModels := [(100, { subjectType := "person", facets := [("hair color", facetC1)] })],
    allBeliefFacets := [facetC1] }

/-- An owner holding a mental model of person 50, and one holding none. -/
def ownerC9 : PersonState :=
  { defaultPersonState with
    id := 1,
    mentalModels := [(50, { subjectType := "person", facets := [] })] }

def ownerC9Empty : PersonState := { defaultPersonState with id := 2 }

def worldC9 : World :=
  { people := [(1, ownerC9), (2, ownerC9Empty),
               (50, { defaultPersonState with id := 50, male := true })],
    placePeople := [], game := { date := "day 1", ordinalDate := 10, eventNumber := 0 } }

def facetC5 : Facet :=
  { subject := 3, featureType := "first name", value := "Ann",
    strength := 1, accurate := true, evidence := [evidC1A] }

def personC5 : PersonState :=
  { defaultPersonState with
    id := 9,
    mentalModels := [(3, { subjectType := "person", facets := [("first name", facetC5)] })],
    allBeliefFacets := [facetC5] }

def gameX : Game := { date := "day 1", ordinalDate := 10, eventNumber := 0 }

def cfgX : SimConfig :=
  { chanceSomeoneEavesdrops := 0, featureProbs := [], instigateFloor := 0,
    instigateCap := 1, extroFloor := 0, extroCap := 1, opennessFloor := 0,
    opennessCap := 1, friendshipComp := 0, bestFriendComp := 0 }

def oracleX : SocializeOracle := { instigateRoll := fun _ => 1 }

def worldC10 : World :=
  { people := [(1, { defaultPersonState with id := 1, name := "Nobody" })],
    placePeople := [], game := gameX }

/-- The facet `consider_new_evidence` creates when no facet exists yet for
the key. -/
def freshFacet (bp : BeliefParams) (q : Nat) (ft v : String) (acc : Bool)
    (ev : Evid) : Facet :=
  { subject := q, featureType := ft, value := v,
    strength := bp.initialStrength ev, accurate := acc, evidence := [ev] }

def bpX : BeliefParams :=
  { initialStrength := fun _ => 1, reinforce := fun s _ => s + 1,
    weightOf := fun _ => 1, weaken := fun s _ => s }

def personC3 : PersonState := { defaultPersonState with id := 20 }

/-- The events a `socialize` call emits, or `none` when it raises. -/
def socializeEvents (cfg : SimConfig) (o : SocializeOracle) (w : World)
    (selfId m : Nat) : Option (List SocEvent) :=
  match socialize cfg o w selfId m with
  | Except.ok r => some r.2
  | Except.error _ => none

def personC7A : PersonState :=
  { defaultPersonState with
    id := 1, name := "A", location := some 10, homeResidents := [1, 2] }

def personC7B : PersonState := { defaultPersonState with id := 2, age := 30 }

def worldC7 : World :=
  { people := [(1, personC7A), (2, personC7B)], placePeople := [(10, [1])],
    game := gameX }

def personC7W : PersonState :=
  { defaultPersonState with
    id := 1, name := "A", location := some 10, homeResidents := [1] }

def worldC7W : World :=
  { people := [(1, personC7W)], placePeople := [(10, [1])], game := gameX }

def facetC6 : Facet :=
  { subject := 3, featureType := "first name", value := "Q",
    strength := 1, accurate := true, evidence := [] }

def talkerC6 : PersonState :=
  { defaultPersonState with
    id := 1, location := some 10,
    mentalModels := [(3, { subjectType := "person", facets := [("first name", facetC6)] })],
    allBeliefFacets := [facetC6] }

def listenerC6 : PersonState := { defaultPersonState with id := 2, location := some 10 }

def worldC6 : World :=
  { people := [(1, talkerC6), (2, listenerC6), (3, { defaultPersonState with id := 3 })],
    placePeople := [(10, [1, 2])], game := gameX }

def cfgC6 : SimConfig := { cfgX with featureProbs := [("first name", 1)] }

def exOracleC6 : ExchangeOracle :=
  { featureRoll := fun _ _ => 0, eavesRoll := fun _ => 1, eavesPick := fun _ => 0 }

def accTrue : Nat → String → String → Bool := fun _ _ _ => true

/-- The Statement created in the first direction of the concrete exchange
of `worldC6`. -/
def stmtC6 : Evid :=
  { etype := "statement", location := some 10, time := "day 1",
    ordinalDate := 10, eventNumber := 1,
    subject := EvidenceSubject.person 3 none, source := some 1,
    recipient := some 2, eavesdropper := none }

/-! ## Theorems -/

theorem alookup_aset_self {κ α : Type} [DecidableEq κ]
    (l : List (κ × α)) (k : κ) (v : α) : alookup (aset l k v) k = some v := by
  induction l with
  | nil => simp [aset, alookup]
  | cons hd tl ih =>
    obtain ⟨k', v'⟩ := hd
    by_cases h : k' = k
    · simp [aset, alookup, h]
    · simp [aset, alookup, h, ih]

theorem alookup_aset_ne {κ α : Type} [DecidableEq κ]
    (l : List (κ × α)) (k k₀ : κ) (v : α) (h : k₀ ≠ k) :
    alookup (aset l k v) k₀ = alookup l k₀ := by
  have hk' : ¬ k = k₀ := fun h' => h h'.symm
  induction l with
  | nil => simp [aset, alookup, hk']
  | cons hd tl ih =>
    obtain ⟨k', v'⟩ := hd
    by_cases hk : k' = k
    · subst hk
      simp [aset, alookup, hk']
    · by_cases hk0 : k' = k₀ <;> simp [aset, alookup, hk, hk0, ih, h]

theorem mem_aset {κ α : Type} [DecidableEq κ]
    (l : List (κ × α)) (k : κ) (v : α) (pr : κ × α) :
    pr ∈ aset l k v → pr = (k, v) ∨ pr ∈ l := by
  induction l with
  | nil =>
    intro h
    simpa [aset] using h
  | cons hd tl ih =>
    obtain ⟨k', v'⟩ := hd
    intro h
    rw [show aset ((k', v') :: tl) k v
        = if k' = k then (k, v) :: tl else (k', v') :: aset tl k v from rfl] at h
    by_cases hk : k' = k
    · rw [if_pos hk] at h
      rcases List.mem_cons.mp h with h | h
      · exact Or.inl h
      · exact Or.inr (List.mem_cons_of_mem _ h)
    · rw [if_neg hk] at h
      rcases List.mem_cons.mp h with h | h
      · exact Or.inr (by simp [h])
      · rcases ih h with h' | h'
        · exact Or.inl h'
        · exact Or.inr (List.mem_cons_of_mem _ h')

theorem createRun_counter_mono (reqs : List (String × EvidenceSubject × SourceAgent))
    (g : Game) : g.eventNumber ≤ (createRun reqs g).2.eventNumber := by
  induction reqs generalizing g with
  | nil => simp [createRun]
  | cons hd tl ih =>
    obtain ⟨t, s, src⟩ := hd
    simp only [createRun, mkPieceOfEvidence, Game.assignEventNumber]
    exact le_trans (Nat.le_succ _) (ih { g with eventNumber := g.eventNumber + 1 })

theorem createRun_lower_bound (reqs : List (String × EvidenceSubject × SourceAgent))
    (g : Game) : ∀ e ∈ (createRun reqs g).1, g.eventNumber < e.eventNumber := by
  induction reqs generalizing g with
  | nil => simp [createRun]
  | cons hd tl ih =>
    obtain ⟨t, s, src⟩ := hd
    intro e he
    simp only [createRun, mkPieceOfEvidence, Game.assignEventNumber, List.mem_cons] at he
    rcases he with he | he
    · simp [he]
    · exact lt_trans (Nat.lt_succ_self _) (ih _ e he)

/-- C2: for every two pieces of Evidence created in the same run, the one
created later carries a strictly greater event number — the stamps are
strictly increasing along any whole-run sequence of `PieceOfEvidence`
constructions threaded through the global game state, regardless of the
dates and timesteps involved. -/
theorem evidence_event_numbers_strictly_increasing
    (reqs : List (String × EvidenceSubject × SourceAgent)) (g : Game) :
    List.Pairwise (fun a b => a.eventNumber < b.eventNumber) (createRun reqs g).1 := by
  induction reqs generalizing g with
  | nil => simp [createRun]
  | cons hd tl ih =>
    obtain ⟨t, s, src⟩ := hd
    simp only [createRun, mkPieceOfEvidence, Game.assignEventNumber]
    constructor
    · intro e he
      exact createRun_lower_bound tl { g with eventNumber := g.eventNumber + 1 } e he
    · exact ih _

/-- C4: constructing Evidence fails with a contract-violation error iff
the kind-specific structural invariant is violated — a Reflection
succeeds iff its subject is identically its source, and an Observation
succeeds iff the source is co-located with the subject. -/
theorem evidence_construction_contract (subject : EvidenceSubject)
    (src : SourceAgent) (g : Game) :
    (constructed (mkReflection subject src g).1 = true ↔
      subject = EvidenceSubject.person src.id src.location) ∧
    (constructed (mkObservation subject src g).1 = true ↔
      observationInvariant subject src) := by
  constructor
  · by_cases h : subject = EvidenceSubject.person src.id src.location <;>
      simp [mkReflection, constructed, h]
  · cases subject with
    | person pid subjLoc =>
      by_cases h : src.location = subjLoc <;>
        simp [mkObservation, constructed, observationInvariant, h]
    | residence pid =>
      by_cases h : src.location = some pid <;>
        simp [mkObservation, constructed, observationInvariant, h]
    | business pid =>
      by_cases h : src.location = some pid <;>
        simp [mkObservation, constructed, observationInvariant, h]

theorem pySortByOwnCountDesc_id (l : List Nat) : pySortByOwnCountDesc l = l := by
  induction l with
  | nil => rfl
  | cons x xs ih =>
    simp only [pySortByOwnCountDesc, sortDescBy] at *
    rw [ih]
    cases xs with
    | nil => rfl
    | cons y ys => simp [orderedInsertDesc]

/-- What the code actually returns: the collected evidence-stream order,
because the self-referential sort key sees the emptied list. -/
theorem sources_eq_collected (p : PersonState) (e : Option Nat) (ft : Option String) :
    sources p e ft = collectedSources p e ft :=
  pySortByOwnCountDesc_id _

/-- C1: the claimed most-frequent-first ranking does not hold.  This
owner's evidence about person 100 came once from source 7 and then twice
from source 8; `sources` returns the plain stream order `[7, 8, 8]` and
`top_source` returns 7, because the sort key
`lambda source: all_my_sources.count(source)` runs while `list.sort` has
emptied `all_my_sources` and therefore yields 0 for every element, while
the ranking the spec describes would put 8 first. -/
theorem sources_not_frequency_ranked :
    sources personC1 (some 100) none = [7, 8, 8] ∧
    topSource personC1 (some 100) none = some 7 ∧
    sources personC1 (some 100) (some "hair color") = [7, 8, 8] ∧
    topSource personC1 (some 100) (some "hair color") = some 7 ∧
    sourcesRankedBySpec personC1 (some 100) none = [8, 8, 7] ∧
    sourcesRankedBySpec personC1 (some 100) (some "hair color") = [8, 8, 7] := by
  refine ⟨?_, ?_, ?_, ?_, ?_, ?_⟩ <;> decide

/-- C9: `people_i_believe_are_named` is not total — as soon as the owner
holds any mental model, the comprehension over the dict keys evaluates
`p.subject` on an entity that has no such attribute and raises
AttributeError; only an owner with no mental models at all gets the empty
list back. -/
theorem people_i_believe_are_named_raises :
    peopleIBelieveAreNamed worldC9 ownerC9 (some "John") none none =
      Except.error "AttributeError: person object has no attribute subject" ∧
    peopleIBelieveAreNamed worldC9 ownerC9 none none (some "m") =
      Except.error "AttributeError: person object has no attribute subject" ∧
    peopleIBelieveAreNamed worldC9 ownerC9Empty (some "John") (some "Doe") (some "m") =
      Except.ok [] := by
  exact ⟨rfl, rfl, rfl⟩

theorem updateSalienceOf_nonneg (p : PersonState) (e : Nat) (c : Rat)
    (h0 : salienceAllNonneg p = true) : salienceAllNonneg (updateSalienceOf p e c) = true := by
  rw [salienceAllNonneg, List.all_eq_true] at *
  intro pr hpr
  have hsal : (updateSalienceOf p e c).salience
      = aset p.salience e (max 0 ((alookup p.salience e).getD 0 + c)) := rfl
  rw [hsal] at hpr
  rcases mem_aset _ _ _ _ hpr with h | h
  · subst h
    simp only [decide_eq_true_eq]
    exact le_max_left _ _
  · exact h0 pr h

/-- C8: the salience map is floor-clamped at zero — starting from any
state whose stored saliences are all non-negative (in particular the
empty map `Person.__init__` creates), any sequence of
`update_salience_of` calls with arbitrary, possibly negative, change
values leaves every stored salience value at or above zero. -/
theorem salience_floor_clamped (p : PersonState) (updates : List (Nat × Rat))
    (h0 : salienceAllNonneg p = true) :
    salienceAllNonneg
      (updates.foldl (fun q u => updateSalienceOf q u.1 u.2) p) = true := by
  induction updates generalizing p with
  | nil => simpa using h0
  | cons u rest ih =>
    exact ih (updateSalienceOf p u.1 u.2) (updateSalienceOf_nonneg p u.1 u.2 h0)

/-- C8 witness: a concrete run with negative changes, from the freshly
initialized empty salience map. -/
theorem salience_floor_clamped_witness :
    salienceAllNonneg
      ([((1 : Nat), (-5 : Rat)), (2, 3), (1, -7), (2, -100)].foldl
        (fun q u => updateSalienceOf q u.1 u.2) defaultPersonState) = true :=
  salience_floor_clamped defaultPersonState
    [((1 : Nat), (-5 : Rat)), (2, 3), (1, -7), (2, -100)] (by decide)

/-- C5: querying beliefs about an entity for which the owner holds no
mental model — or about `None` — returns the empty/no-belief result and
never an error: `belief` is `None`, `accurate_belief` and
`inaccurate_belief` are `False`, and `sources` is the empty list.  The
hypothesis `hwf` is the lazy-creation invariant of the missing belief.py
(a facet exists only for subjects with a mental model, §4.3). -/
theorem unknown_entity_queries_are_empty (p : PersonState) (e : EntityRef) (ft : String)
    (hwf : ∀ f ∈ p.allBeliefFacets, (alookup p.mentalModels f.subject).isSome = true)
    (hunk : alookup p.mentalModels e.id = none) :
    belief p (some e) ft = none ∧
    belief p none ft = none ∧
    accurateBelief p (some e) ft = false ∧
    inaccurateBelief p (some e) ft = false ∧
    accurateBelief p none ft = false ∧
    inaccurateBelief p none ft = false ∧
    sources p (some e.id) (some ft) = [] ∧
    sources p (some e.id) none = [] := by
  have hne : ∀ f ∈ p.allBeliefFacets, f.subject ≠ e.id := by
    intro f hf heq
    have hs := hwf f hf
    rw [heq, hunk] at hs
    simp at hs
  have hb : belief p (some e) ft = none := by simp [belief, hunk]
  refine ⟨hb, rfl, ?_, ?_, rfl, rfl, ?_, ?_⟩
  · simp [accurateBelief, hb]
  · simp [inaccurateBelief, hb]
  · rw [sources_eq_collected]
    simp only [collectedSources]
    simp
    exact fun l x hx hs _ _ => absurd hs (hne x hx)
  · rw [sources_eq_collected]
    simp only [collectedSources]
    simp
    exact fun l x hx hs _ => absurd hs (hne x hx)

/-- C5 witness: an owner who knows about person 3 but is queried about
person 4, whom they hold no mental model of. -/
theorem unknown_entity_queries_are_empty_witness :
    belief personC5 (some { id := 4, etype := "person" }) "first name" = none ∧
    belief personC5 none "first name" = none ∧
    accurateBelief personC5 (some { id := 4, etype := "person" }) "first name" = false ∧
    inaccurateBelief personC5 (some { id := 4, etype := "person" }) "first name" = false ∧
    accurateBelief personC5 none "first name" = false ∧
    inaccurateBelief personC5 none "first name" = false ∧
    sources personC5 (some 4) (some "first name") = [] ∧
    sources personC5 (some 4) none = [] :=
  unknown_entity_queries_are_empty personC5 { id := 4, etype := "person" } "first name"
    (by decide) (by decide)

/-- C10: `socialize` on a person whose current location is unset raises
(the guard on src/person.py lines 2000-2001) and never completes
normally. -/
theorem socialize_raises_without_location (cfg : SimConfig) (o : SocializeOracle)
    (w : World) (selfId missing : Nat)
    (h : (getPerson w selfId).location = none) :
    socialize cfg o w selfId missing =
      Except.error ((getPerson w selfId).name
        ++ " tried to socialize, but they have no location currently.") := by
  simp [socialize, h]

/-- C10 witness: a concrete person with `location = None`. -/
theorem socialize_raises_without_location_witness :
    socialize cfgX oracleX worldC10 1 1 =
      Except.error ((getPerson worldC10 1).name
        ++ " tried to socialize, but they have no location currently.") :=
  socialize_raises_without_location cfgX oracleX worldC10 1 1 rfl

theorem considerNewEvidence_fresh (bp : BeliefParams) (p : PersonState)
    (q : Nat) (ft v : String) (acc : Bool) (ev : Evid)
    (hnb : getKnowledgeAboutPerson p q ft = none) :
    ∃ mm : MentalModel,
      (considerNewEvidence bp p q ft v acc ev).mentalModels
        = aset p.mentalModels q mm ∧
      alookup mm.facets ft = some (freshFacet bp q ft v acc ev) ∧
      (considerNewEvidence bp p q ft v acc ev).allBeliefFacets
        = p.allBeliefFacets ++ [freshFacet bp q ft v acc ev] := by
  cases hm : alookup p.mentalModels q with
  | none =>
    refine ⟨{ subjectType := "person",
              facets := aset [] ft (freshFacet bp q ft v acc ev) }, ?_, ?_, ?_⟩
    · simp [considerNewEvidence, hm, alookup, freshFacet]
    · exact alookup_aset_self _ _ _
    · simp [considerNewEvidence, hm, alookup, freshFacet]
  | some m =>
    have hfac : alookup m.facets ft = none := by
      simpa [getKnowledgeAboutPerson, hm] using hnb
    refine ⟨{ m with facets := aset m.facets ft (freshFacet bp q ft v acc ev) }, ?_, ?_, ?_⟩
    · simp [considerNewEvidence, hm, hfac, freshFacet]
    · exact alookup_aset_self _ _ _
    · simp [considerNewEvidence, hm, hfac, freshFacet]

/-- C3: an owner with no prior belief about a subject's feature who
receives a single supporting Statement conveying value `v` for it
immediately afterwards believes exactly `v` for that feature, and the
first (and only) entry of `sources` for that subject and feature is the
Statement's source. -/
theorem belief_roundtrip_single_statement
    (bp : BeliefParams) (p : PersonState) (q : Nat) (qloc : Option Nat)
    (ft v : String) (acc : Bool) (talker : SourceAgent) (g : Game)
    (hnf : ∀ f ∈ p.allBeliefFacets, ¬(f.subject = q ∧ f.featureType = ft))
    (hnb : getKnowledgeAboutPerson p q ft = none) :
    (belief
        (considerNewEvidence bp p q ft v acc
          (mkStatement (EvidenceSubject.person q qloc) talker p.id g).1)
        (some { id := q, etype := "person" }) ft).map Facet.value = some v ∧
    sources
        (considerNewEvidence bp p q ft v acc
          (mkStatement (EvidenceSubject.person q qloc) talker p.id g).1)
        (some q) (some ft) = [talker.id] ∧
    topSource
        (considerNewEvidence bp p q ft v acc
          (mkStatement (EvidenceSubject.person q qloc) talker p.id g).1)
        (some q) (some ft) = some talker.id ∧
    (mkStatement (EvidenceSubject.person q qloc) talker p.id g).1.source
      = some talker.id := by
  obtain ⟨mm, hmodels, hfacet, hfacets⟩ :=
    considerNewEvidence_fresh bp p q ft v acc
      (mkStatement (EvidenceSubject.person q qloc) talker p.id g).1 hnb
  have hb : belief
      (considerNewEvidence bp p q ft v acc
        (mkStatement (EvidenceSubject.person q qloc) talker p.id g).1)
      (some { id := q, etype := "person" }) ft
      = some (freshFacet bp q ft v acc
          (mkStatement (EvidenceSubject.person q qloc) talker p.id g).1) := by
    simp [belief, getKnowledgeAboutPerson, hmodels, alookup_aset_self, hfacet]
  have hold : p.allBeliefFacets.filter
      (fun (f : Facet) => some f.subject == some q && f.featureType == ft) = [] := by
    rw [List.filter_eq_nil_iff]
    intro f hf
    simp only [Bool.and_eq_true, beq_iff_eq, Option.some.injEq, not_and]
    intro h1 h2
    exact hnf f hf ⟨h1, h2⟩
  have hcol : collectedSources
      (considerNewEvidence bp p q ft v acc
        (mkStatement (EvidenceSubject.person q qloc) talker p.id g).1)
      (some q) (some ft)
      = (((considerNewEvidence bp p q ft v acc
            (mkStatement (EvidenceSubject.person q qloc) talker p.id g).1).allBeliefFacets.filter
          (fun (f : Facet) => some f.subject == some q && f.featureType == ft)).map
          (fun (f : Facet) => f.evidence.filterMap (fun piece => piece.source))).flatten := rfl
  have hsrc : sources
      (considerNewEvidence bp p q ft v acc
        (mkStatement (EvidenceSubject.person q qloc) talker p.id g).1)
      (some q) (some ft) = [talker.id] := by
    rw [sources_eq_collected, hcol, hfacets, List.filter_append, hold]
    simp [freshFacet, mkStatement, mkPieceOfEvidence, Game.assignEventNumber]
  refine ⟨?_, hsrc, ?_, rfl⟩
  · rw [hb]
    rfl
  · rw [topSource, hsrc]
    rfl

/-- C3 witness: owner 20 with no beliefs at all hears from talker 7 that
person 3's first name is Ann. -/
theorem belief_roundtrip_single_statement_witness :
    (belief
        (considerNewEvidence bpX personC3 3 "first name" "Ann" true
          (mkStatement (EvidenceSubject.person 3 (some 10))
            { id := 7, location := some 10 } personC3.id gameX).1)
        (some { id := 3, etype := "person" }) "first name").map Facet.value = some "Ann" ∧
    sources
        (considerNewEvidence bpX personC3 3 "first name" "Ann" true
          (mkStatement (EvidenceSubject.person 3 (some 10))
            { id := 7, location := some 10 } personC3.id gameX).1)
        (some 3) (some "first name") = [7] ∧
    topSource
        (considerNewEvidence bpX personC3 3 "first name" "Ann" true
          (mkStatement (EvidenceSubject.person 3 (some 10))
            { id := 7, location := some 10 } personC3.id gameX).1)
        (some 3) (some "first name") = some 7 ∧
    (mkStatement (EvidenceSubject.person 3 (some 10))
      { id := 7, location := some 10 } personC3.id gameX).1.source = some 7 :=
  belief_roundtrip_single_statement bpX personC3 3 (some 10) "first name" "Ann" true
    { id := 7, location := some 10 } gameX (by simp [personC3, defaultPersonState]) rfl

theorem getPerson_updPerson_self (w : World) (pid : Nat) (f : PersonState → PersonState) :
    getPerson (updPerson w pid f) pid = f (getPerson w pid) := by
  simp [getPerson, updPerson, alookup_aset_self]

theorem decideToInstigate_self (cfg : SimConfig) (w : World) (selfP : PersonState)
    (roll : Rat) (h : 0 ≤ roll) :
    decideToInstigate cfg w selfP selfP.id roll = false := by
  simp [decideToInstigate, chanceOfInstigating]
  exact h

theorem socializeLoop1Step_self (cfg : SimConfig) (o : SocializeOracle)
    (missing selfId x : Nat) (st : World × List SocEvent)
    (hx : x = selfId) (hid : (getPerson st.1 selfId).id = selfId)
    (hroll : 0 ≤ o.instigateRoll x) :
    socializeLoop1Step cfg o missing selfId st x = st := by
  have hc : chanceOfInstigating cfg st.1 (getPerson st.1 selfId) x = 0 := by
    unfold chanceOfInstigating
    rw [if_pos]
    exact Or.inl (hx.trans hid.symm)
  have hdec : decideToInstigate cfg st.1 (getPerson st.1 selfId) x
      (o.instigateRoll x) = false := by
    unfold decideToInstigate
    rw [hc]
    simpa using not_lt.mpr hroll
  simp [socializeLoop1Step, hdec]

theorem socializeInteractBody_partner_inv (missing selfId pid : Nat)
    (st : World × List SocEvent) (hpid : pid ≠ selfId)
    (hall : ∀ ev ∈ st.2, socPartner ev ≠ selfId)
    (hid : (getPerson st.1 selfId).id = selfId) :
    (∀ ev ∈ (socializeInteractBody missing st selfId pid).2, socPartner ev ≠ selfId) ∧
    (getPerson (socializeInteractBody missing st selfId pid).1 selfId).id = selfId := by
  have hnew : ∀ ev ∈ ([SocEvent.acquaintanceFormed pid] ++
      [SocEvent.progressedRelationship pid] ++
      (if missing = 1 then [SocEvent.exchangedInformation pid] else [])),
      socPartner ev ≠ selfId := by
    intro ev hev
    by_cases hm : missing = 1 <;> simp [hm] at hev <;>
      rcases hev with rfl | rfl | rfl <;> simp [socPartner, hpid]
  have hnew2 : ∀ ev ∈ (([] : List SocEvent) ++
      [SocEvent.progressedRelationship pid] ++
      (if missing = 1 then [SocEvent.exchangedInformation pid] else [])),
      socPartner ev ≠ selfId := by
    intro ev hev
    by_cases hm : missing = 1
    · simp [hm] at hev
      rcases hev with rfl | rfl <;> simp [socPartner, hpid]
    · simp [hm] at hev
      rcases hev with rfl
      simp [socPartner, hpid]
  by_cases hacq : (alookup (getPerson st.1 selfId).relationships pid).isNone = true
  · simp only [socializeInteractBody, hacq, if_true, alookup_aset_self,
      Option.getD_some, if_pos]
    constructor
    · intro ev hev
      rcases List.mem_append.mp hev with h | h
      · exact hall ev h
      · exact hnew ev h
    · simp [getPerson_updPerson_self, hid]
  · rw [Bool.not_eq_true] at hacq
    by_cases hflag : (alookup (getPerson st.1 selfId).relationships pid).getD false = false
    · simp only [socializeInteractBody, hacq, Bool.false_eq_true, if_false, hflag, if_pos]
      constructor
      · intro ev hev
        rcases List.mem_append.mp hev with h | h
        · exact hall ev h
        · exact hnew2 ev h
      · simp [getPerson_updPerson_self, hid]
    · simp only [socializeInteractBody, hacq, Bool.false_eq_true, if_false, hflag]
      constructor
      · intro ev hev
        rcases List.mem_append.mp hev with h | h
        · exact hall ev h
        · simp at h
      · exact hid

theorem socialize_loop2_inv (missing selfId : Nat) (l : List Nat) :
    ∀ st : World × List SocEvent, (∀ pid ∈ l, pid ≠ selfId) →
    (∀ ev ∈ st.2, socPartner ev ≠ selfId) →
    (getPerson st.1 selfId).id = selfId →
    ((∀ ev ∈ (l.foldl (fun st pid => socializeInteractBody missing st selfId pid) st).2,
        socPartner ev ≠ selfId) ∧
      (getPerson
        (l.foldl (fun st pid => socializeInteractBody missing st selfId pid) st).1
        selfId).id = selfId) := by
  induction l with
  | nil =>
    intro st _ hall hid
    exact ⟨hall, hid⟩
  | cons x xs ih =>
    intro st hmem hall hid
    have hx : x ≠ selfId := hmem x (by simp)
    obtain ⟨h1, h2⟩ := socializeInteractBody_partner_inv missing selfId x st hx hall hid
    exact ih _ (fun pid hp => hmem pid (by simp [hp])) h1 h2

theorem socialize_loop1_inv (cfg : SimConfig) (o : SocializeOracle)
    (missing selfId : Nat) (l : List Nat) :
    ∀ st : World × List SocEvent, (∀ pid, 0 ≤ o.instigateRoll pid) →
    (∀ ev ∈ st.2, socPartner ev ≠ selfId) →
    (getPerson st.1 selfId).id = selfId →
    ((∀ ev ∈ (l.foldl (socializeLoop1Step cfg o missing selfId) st).2,
        socPartner ev ≠ selfId) ∧
      (getPerson (l.foldl (socializeLoop1Step cfg o missing selfId) st).1
        selfId).id = selfId) := by
  induction l with
  | nil =>
    intro st _ hall hid
    exact ⟨hall, hid⟩
  | cons x xs ih =>
    intro st hroll hall hid
    by_cases hx : x = selfId
    · rw [List.foldl_cons, socializeLoop1Step_self cfg o missing selfId x st hx hid (hroll x)]
      exact ih st hroll hall hid
    · by_cases hdec : decideToInstigate cfg st.1 (getPerson st.1 selfId) x
          (o.instigateRoll x) = true
      · have hstep : socializeLoop1Step cfg o missing selfId st x
            = socializeInteractBody missing st selfId x := by
          simp [socializeLoop1Step, hdec]
        obtain ⟨h1, h2⟩ := socializeInteractBody_partner_inv missing selfId x st hx hall hid
        rw [List.foldl_cons, hstep]
        exact ih _ hroll h1 h2
      · have hstep : socializeLoop1Step cfg o missing selfId st x = st := by
          rw [Bool.not_eq_true] at hdec
          simp [socializeLoop1Step, hdec]
        rw [List.foldl_cons, hstep]
        exact ih st hroll hall hid

theorem socialize_loop1_skip (cfg : SimConfig) (o : SocializeOracle)
    (missing selfId : Nat) (l : List Nat) :
    ∀ st : World × List SocEvent, (∀ pid ∈ l, pid = selfId) →
    (getPerson st.1 selfId).id = selfId →
    (∀ pid, 0 ≤ o.instigateRoll pid) →
    l.foldl (socializeLoop1Step cfg o missing selfId) st = st := by
  induction l with
  | nil =>
    intro st _ _ _
    rfl
  | cons x xs ih =>
    intro st hmem hid hroll
    rw [List.foldl_cons,
      socializeLoop1Step_self cfg o missing selfId x st (hmem x (by simp)) hid (hroll x)]
    exact ih st (fun pid hp => hmem pid (by simp [hp])) hid hroll

/-- C7, amended: with a current location set, socializing while
co-located with zero other people raises nothing and performs no
interaction with co-located people — and when additionally no one else
lives in the person\x27s home, it is a complete no-op; interactions with
housemates can still occur through the live-together cheat loop
regardless of location.  Moreover a person never has themself as an
interlocutor: no interaction event of any `socialize` call targets the
socializing person themself. -/
theorem socialize_degenerate_amended :
    (∀ (cfg : SimConfig) (o : SocializeOracle) (w : World) (selfId m loc : Nat),
      (getPerson w selfId).location = some loc →
      (∀ pid ∈ (alookup w.placePeople loc).getD [], pid = selfId) →
      (getPerson w selfId).homeResidents.filter (fun pid => pid != selfId) = [] →
      (getPerson w selfId).id = selfId →
      (∀ pid, 0 ≤ o.instigateRoll pid) →
      socialize cfg o w selfId m = Except.ok (w, [])) ∧
    (∀ (cfg : SimConfig) (o : SocializeOracle) (w : World) (selfId m : Nat),
      (getPerson w selfId).id = selfId →
      (∀ pid, 0 ≤ o.instigateRoll pid) →
      ∀ evs, socializeEvents cfg o w selfId m = some evs →
        ∀ ev ∈ evs, socPartner ev ≠ selfId) := by
  constructor
  · intro cfg o w selfId m loc hloc honly hres hid hroll
    have h1 : ((alookup w.placePeople loc).getD []).foldl
        (socializeLoop1Step cfg o m selfId) (w, ([] : List SocEvent)) = (w, []) :=
      socialize_loop1_skip cfg o m selfId _ (w, []) honly hid hroll
    simp only [socialize, hloc]
    rw [h1]
    simp [hres]
  · intro cfg o w selfId m hid hroll
    cases hloc : (getPerson w selfId).location with
    | none =>
      intro evs hevs
      simp [socializeEvents, socialize, hloc] at hevs
    | some loc =>
      have l1 := socialize_loop1_inv cfg o m selfId
        ((alookup w.placePeople loc).getD []) (w, []) hroll (by simp) hid
      have hresmem : ∀ pid ∈ (getPerson
          (((alookup w.placePeople loc).getD []).foldl
            (socializeLoop1Step cfg o m selfId) (w, ([] : List SocEvent))).1
          selfId).homeResidents.filter (fun pid => pid != selfId), pid ≠ selfId := by
        intro pid hp
        have := List.of_mem_filter hp
        simpa using this
      have l2 := socialize_loop2_inv m selfId _ _ hresmem l1.1 l1.2
      intro evs hevs
      simp only [socializeEvents, socialize, hloc] at hevs
      rw [Option.some.injEq] at hevs
      rw [← hevs]
      exact l2.1

/-- C7 counterexample: person 1 is at place 10 co-located with zero other
people, yet `socialize` is not a no-op — through the live-together cheat
loop it forms an acquaintance with housemate 2, progresses that
relationship, and exchanges information with them. -/
theorem socialize_not_noop_with_zero_colocated :
    socializeEvents cfgX oracleX worldC7 1 1 =
      some [SocEvent.acquaintanceFormed 2, SocEvent.progressedRelationship 2,
        SocEvent.exchangedInformation 2] := by
  decide

/-- C7 witness: the amended theorem applied to a person alone at their
location who lives alone (complete no-op), and to the housemate world
(no event of that call targets the socializing person themself). -/
theorem socialize_degenerate_amended_witness :
    socialize cfgX oracleX worldC7W 1 1 = Except.ok (worldC7W, []) ∧
    (∀ evs, socializeEvents cfgX oracleX worldC7 1 1 = some evs →
      ∀ ev ∈ evs, socPartner ev ≠ 1) :=
  ⟨socialize_degenerate_amended.1 cfgX oracleX worldC7W 1 1 10 rfl (by decide)
      (by decide) rfl (fun _ => by norm_num [oracleX]),
    socialize_degenerate_amended.2 cfgX oracleX worldC7 1 1 rfl
      (fun _ => by norm_num [oracleX])⟩

theorem exchangeFeatureStep_log_mono (bp : BeliefParams)
    (acc : Nat → String → String → Bool) (o : ExchangeOracle)
    (dir talkerId listenerId qId : Nat) (stmtE declE : Evid)
    (eav : Option (Nat × Evid)) (st : World × List ExchangeEvent)
    (fp : String × Rat) (x : ExchangeEvent) (hx : x ∈ st.2) :
    x ∈ (exchangeFeatureStep bp acc o dir talkerId listenerId qId stmtE declE eav st fp).2 := by
  unfold exchangeFeatureStep
  by_cases hroll : o.featureRoll dir fp.1 < fp.2
  · simp only [hroll, if_pos]
    cases hknow : getKnowledgeAboutPerson (getPerson st.1 talkerId) qId fp.1 with
    | none => exact hx
    | some facet =>
      by_cases htr : facet.truthy = true
      · cases eav with
        | none =>
          simp only [htr, if_pos]
          exact List.mem_append_left _ hx
        | some ed =>
          simp only [htr, if_pos]
          exact List.mem_append_left _ hx
      · rw [Bool.not_eq_true] at htr
        simp only [htr, Bool.false_eq_true, if_false]
        exact hx
  · simp only [hroll, if_neg, if_false]
    exact hx

theorem exchangeFeatureStep_foldl_mono (bp : BeliefParams)
    (acc : Nat → String → String → Bool) (o : ExchangeOracle)
    (dir talkerId listenerId qId : Nat) (stmtE declE : Evid)
    (eav : Option (Nat × Evid)) (fps : List (String × Rat)) :
    ∀ (st : World × List ExchangeEvent) (x : ExchangeEvent), x ∈ st.2 →
    x ∈ (fps.foldl (exchangeFeatureStep bp acc o dir talkerId listenerId qId stmtE declE eav) st).2 := by
  induction fps with
  | nil =>
    intro st x hx
    exact hx
  | cons fp rest ih =>
    intro st x hx
    rw [List.foldl_cons]
    exact ih _ x (exchangeFeatureStep_log_mono bp acc o dir talkerId listenerId qId
      stmtE declE eav st fp x hx)

theorem exchangeFeatureStep_inv (bp : BeliefParams)
    (acc : Nat → String → String → Bool) (o : ExchangeOracle)
    (dir talkerId listenerId qId : Nat) (stmtE declE : Evid)
    (eav : Option (Nat × Evid)) (st : World × List ExchangeEvent)
    (fp : String × Rat)
    (hdecl : ¬ declE.etype = "statement")
    (heav : ∀ ed, eav = some ed → ¬ ed.2.etype = "statement")
    (hP : ∀ L ft v e, ExchangeEvent.ingested L ft v e ∈ st.2 → e.etype = "statement" →
      L = listenerId ∧ e = stmtE ∧ ExchangeEvent.ingested talkerId ft v declE ∈ st.2) :
    ∀ L ft v e, ExchangeEvent.ingested L ft v e ∈
        (exchangeFeatureStep bp acc o dir talkerId listenerId qId stmtE declE eav st fp).2 →
      e.etype = "statement" →
      L = listenerId ∧ e = stmtE ∧ ExchangeEvent.ingested talkerId ft v declE ∈
        (exchangeFeatureStep bp acc o dir talkerId listenerId qId stmtE declE eav st fp).2 := by
  intro L ft v e hmem hstmt
  unfold exchangeFeatureStep at hmem ⊢
  by_cases hroll : o.featureRoll dir fp.1 < fp.2
  · simp only [hroll, if_pos] at hmem ⊢
    cases hknow : getKnowledgeAboutPerson (getPerson st.1 talkerId) qId fp.1 with
    | none =>
      rw [hknow] at hmem
      exact hP L ft v e hmem hstmt
    | some facet =>
      rw [hknow] at hmem
      by_cases htr : facet.truthy = true
      · cases eav with
        | none =>
          simp only [htr, if_pos] at hmem ⊢
          rcases List.mem_append.mp hmem with h | h
          · obtain ⟨h1, h2, h3⟩ := hP L ft v e h hstmt
            exact ⟨h1, h2, List.mem_append_left _ h3⟩
          · simp only [List.mem_cons, List.mem_singleton] at h
            rcases h with h | h | h
            · injection h with hL hft hv he
              exact ⟨hL, he,
                List.mem_append_right _ (by rw [hft, hv]; simp)⟩
            · exfalso
              injection h with hL hft hv he
              rw [← he] at hdecl
              exact hdecl hstmt
            · exact absurd h (by simp)
        | some ed =>
          simp only [htr, if_pos] at hmem ⊢
          rcases List.mem_append.mp hmem with h | h
          · obtain ⟨h1, h2, h3⟩ := hP L ft v e h hstmt
            exact ⟨h1, h2, List.mem_append_left _ h3⟩
          · simp only [List.mem_cons, List.mem_singleton] at h
            rcases h with h | h | h
            · injection h with hL hft hv he
              exact ⟨hL, he,
                List.mem_append_right _ (by rw [hft, hv]; simp)⟩
            · exfalso
              injection h with hL hft hv he
              rw [← he] at hdecl
              exact hdecl hstmt
            · rcases h with h | h
              · exfalso
                injection h with hL hft hv he
                rw [he] at hstmt
                exact heav ed rfl hstmt
              · exact absurd h (by simp)
      · rw [Bool.not_eq_true] at htr
        simp only [htr, Bool.false_eq_true, if_false] at hmem ⊢
        exact hP L ft v e hmem hstmt
  · simp only [hroll, if_neg, if_false] at hmem ⊢
    exact hP L ft v e hmem hstmt

theorem exchangeFeatureStep_foldl_inv (bp : BeliefParams)
    (acc : Nat → String → String → Bool) (o : ExchangeOracle)
    (dir talkerId listenerId qId : Nat) (stmtE declE : Evid)
    (eav : Option (Nat × Evid)) (fps : List (String × Rat))
    (hdecl : ¬ declE.etype = "statement")
    (heav : ∀ ed, eav = some ed → ¬ ed.2.etype = "statement") :
    ∀ st : World × List ExchangeEvent,
    (∀ L ft v e, ExchangeEvent.ingested L ft v e ∈ st.2 → e.etype = "statement" →
      L = listenerId ∧ e = stmtE ∧ ExchangeEvent.ingested talkerId ft v declE ∈ st.2) →
    ∀ L ft v e, ExchangeEvent.ingested L ft v e ∈
        (fps.foldl (exchangeFeatureStep bp acc o dir talkerId listenerId qId stmtE declE eav) st).2 →
      e.etype = "statement" →
      L = listenerId ∧ e = stmtE ∧ ExchangeEvent.ingested talkerId ft v declE ∈
        (fps.foldl (exchangeFeatureStep bp acc o dir talkerId listenerId qId stmtE declE eav) st).2 := by
  induction fps with
  | nil =>
    intro st hP
    exact hP
  | cons fp rest ih =>
    intro st hP
    rw [List.foldl_cons]
    exact ih _ (exchangeFeatureStep_inv bp acc o dir talkerId listenerId qId
      stmtE declE eav st fp hdecl heav hP)

theorem directionPieces_facts (cfg : SimConfig) (o : ExchangeOracle) (dir : Nat)
    (w : World) (selfId talkerId listenerId qId : Nat) :
    (directionPieces cfg o dir w selfId talkerId listenerId qId).1.1.etype = "statement" ∧
    (directionPieces cfg o dir w selfId talkerId listenerId qId).1.1.source = some talkerId ∧
    (directionPieces cfg o dir w selfId talkerId listenerId qId).1.1.recipient = some listenerId ∧
    (directionPieces cfg o dir w selfId talkerId listenerId qId).1.2.etype = "declaration" ∧
    (directionPieces cfg o dir w selfId talkerId listenerId qId).1.2.source = some talkerId ∧
    (directionPieces cfg o dir w selfId talkerId listenerId qId).1.2.recipient = some listenerId ∧
    (∀ ed, (directionPieces cfg o dir w selfId talkerId listenerId qId).2.1 = some ed →
      ed.2.etype = "eavesdropping") ∧
    ExchangeEvent.created (directionPieces cfg o dir w selfId talkerId listenerId qId).1.2
      ∈ (directionPieces cfg o dir w selfId talkerId listenerId qId).2.2.2 ∧
    (∀ L ft v e, ExchangeEvent.ingested L ft v e ∉
      (directionPieces cfg o dir w selfId talkerId listenerId qId).2.2.2) := by
  simp only [directionPieces]
  split
  · refine ⟨rfl, rfl, rfl, rfl, rfl, rfl, ?_, by simp, ?_⟩
    · intro ed hed
      exact absurd hed (by simp)
    · intro L ft v e
      simp
  · split
    · refine ⟨rfl, rfl, rfl, rfl, rfl, rfl, ?_, by simp, ?_⟩
      · intro ed hed
        rw [Option.some.injEq] at hed
        rw [← hed]
        rfl
      · intro L ft v e
        simp
    · refine ⟨rfl, rfl, rfl, rfl, rfl, rfl, ?_, by simp, ?_⟩
      · intro ed hed
        exact absurd hed (by simp)
      · intro L ft v e
        simp

theorem exchangeDirection_statement_decl (cfg : SimConfig) (bp : BeliefParams)
    (acc : Nat → String → String → Bool) (o : ExchangeOracle) (dir : Nat)
    (w : World) (selfId talkerId listenerId qId : Nat) :
    ∀ L ft v e,
      ExchangeEvent.ingested L ft v e ∈
        (exchangeDirection cfg bp acc o dir w selfId talkerId listenerId qId).2 →
      e.etype = "statement" →
      ∃ d : Evid,
        L = listenerId ∧ e.source = some talkerId ∧ e.recipient = some listenerId ∧
        ExchangeEvent.created d ∈
          (exchangeDirection cfg bp acc o dir w selfId talkerId listenerId qId).2 ∧
        d.etype = "declaration" ∧ d.source = some talkerId ∧
        d.recipient = some listenerId ∧
        ExchangeEvent.ingested talkerId ft v d ∈
          (exchangeDirection cfg bp acc o dir w selfId talkerId listenerId qId).2 := by
  obtain ⟨hst, hss, hsr, hdt, hds, hdr, heav, hdmem, hnoing⟩ :=
    directionPieces_facts cfg o dir w selfId talkerId listenerId qId
  have heq : exchangeDirection cfg bp acc o dir w selfId talkerId listenerId qId
      = cfg.featureProbs.foldl
          (exchangeFeatureStep bp acc o dir talkerId listenerId qId
            (directionPieces cfg o dir w selfId talkerId listenerId qId).1.1
            (directionPieces cfg o dir w selfId talkerId listenerId qId).1.2
            (directionPieces cfg o dir w selfId talkerId listenerId qId).2.1)
          (directionPieces cfg o dir w selfId talkerId listenerId qId).2.2 := rfl
  intro L ft v e hmem hstmt
  rw [heq] at hmem ⊢
  have hdecl : ¬ (directionPieces cfg o dir w selfId talkerId listenerId qId).1.2.etype
      = "statement" := by
    rw [hdt]
    decide
  have heav' : ∀ ed,
      (directionPieces cfg o dir w selfId talkerId listenerId qId).2.1 = some ed →
      ¬ ed.2.etype = "statement" := by
    intro ed hed
    rw [heav ed hed]
    decide
  have hbase : ∀ L ft v e, ExchangeEvent.ingested L ft v e ∈
      (directionPieces cfg o dir w selfId talkerId listenerId qId).2.2.2 →
      e.etype = "statement" →
      L = listenerId ∧ e = (directionPieces cfg o dir w selfId talkerId listenerId qId).1.1 ∧
      ExchangeEvent.ingested talkerId ft v
        (directionPieces cfg o dir w selfId talkerId listenerId qId).1.2 ∈
        (directionPieces cfg o dir w selfId talkerId listenerId qId).2.2.2 :=
    fun L ft v e hm _ => absurd hm (hnoing L ft v e)
  obtain ⟨h1, h2, h3⟩ := exchangeFeatureStep_foldl_inv bp acc o dir talkerId listenerId qId
    (directionPieces cfg o dir w selfId talkerId listenerId qId).1.1
    (directionPieces cfg o dir w selfId talkerId listenerId qId).1.2
    (directionPieces cfg o dir w selfId talkerId listenerId qId).2.1
    cfg.featureProbs hdecl heav'
    (directionPieces cfg o dir w selfId talkerId listenerId qId).2.2 hbase
    L ft v e hmem hstmt
  refine ⟨(directionPieces cfg o dir w selfId talkerId listenerId qId).1.2,
    h1, ?_, ?_, ?_, hdt, hds, hdr, h3⟩
  · rw [h2, hss]
  · rw [h2, hsr]
  · exact exchangeFeatureStep_foldl_mono bp acc o dir talkerId listenerId qId
      (directionPieces cfg o dir w selfId talkerId listenerId qId).1.1
      (directionPieces cfg o dir w selfId talkerId listenerId qId).1.2
      (directionPieces cfg o dir w selfId talkerId listenerId qId).2.1
      cfg.featureProbs
      (directionPieces cfg o dir w selfId talkerId listenerId qId).2.2 _ hdmem

/-- C6, amended: whenever a feature of the person under discussion is
conveyed by a Statement during an information exchange, a Declaration —
with the talker as source and the *listener* as recipient (the code
passes `recipient=listener` on src/person.py line 2078, not
talker-to-talker) — is also created, regardless of the statement's
truthfulness, and the talker's own mental model ingests that Declaration
via `consider_new_evidence`, so the act of telling reinforces the
talker's own belief. -/
theorem statement_conveyance_reinforces_talker (cfg : SimConfig) (bp : BeliefParams)
    (acc : Nat → String → String → Bool) (o : ExchangeOracle)
    (w : World) (selfId interId qId : Nat)
    (L : Nat) (ft v : String) (e : Evid)
    (hmem : ExchangeEvent.ingested L ft v e ∈
      (exchangeInformationAboutAPerson cfg bp acc o w selfId interId qId).2)
    (hstmt : e.etype = "statement") :
    ∃ T : Nat, ∃ d : Evid,
      e.source = some T ∧ e.recipient = some L ∧
      ExchangeEvent.created d ∈
        (exchangeInformationAboutAPerson cfg bp acc o w selfId interId qId).2 ∧
      d.etype = "declaration" ∧ d.source = some T ∧ d.recipient = some L ∧
      ExchangeEvent.ingested T ft v d ∈
        (exchangeInformationAboutAPerson cfg bp acc o w selfId interId qId).2 := by
  have hsplit : (exchangeInformationAboutAPerson cfg bp acc o w selfId interId qId).2
      = (exchangeDirection cfg bp acc o 0
          (ensureMentalModelOf (ensureMentalModelOf w selfId qId) interId qId)
          selfId selfId interId qId).2
        ++ (exchangeDirection cfg bp acc o 1
            (exchangeDirection cfg bp acc o 0
              (ensureMentalModelOf (ensureMentalModelOf w selfId qId) interId qId)
              selfId selfId interId qId).1
            selfId interId selfId qId).2 := rfl
  rw [hsplit] at hmem ⊢
  rcases List.mem_append.mp hmem with h | h
  · obtain ⟨d, h1, h2, h3, h4, h5, h6, h7, h8⟩ :=
      exchangeDirection_statement_decl cfg bp acc o 0
        (ensureMentalModelOf (ensureMentalModelOf w selfId qId) interId qId)
        selfId selfId interId qId L ft v e h hstmt
    subst h1
    exact ⟨selfId, d, h2, h3, List.mem_append_left _ h4, h5, h6, h7,
      List.mem_append_left _ h8⟩
  · obtain ⟨d, h1, h2, h3, h4, h5, h6, h7, h8⟩ :=
      exchangeDirection_statement_decl cfg bp acc o 1
        (exchangeDirection cfg bp acc o 0
          (ensureMentalModelOf (ensureMentalModelOf w selfId qId) interId qId)
          selfId selfId interId qId).1
        selfId interId selfId qId L ft v e h hstmt
    subst h1
    exact ⟨interId, d, h2, h3, List.mem_append_right _ h4, h5, h6, h7,
      List.mem_append_right _ h8⟩

/-- C6 counterexample: in this concrete exchange a feature of person 3 is
conveyed by a Statement (the log holds a statement ingestion, and
Declarations are created), yet no created Declaration is talker-to-talker
— every created Declaration has a recipient different from its source,
because the code constructs it with `recipient=listener`. -/
theorem declaration_recipient_is_listener_not_talker :
    ((exchangeInformationAboutAPerson cfgC6 bpX accTrue exOracleC6 worldC6 1 2 3).2.any
      (fun ev => match ev with
        | ExchangeEvent.ingested _ _ _ e => e.etype == "statement"
        | _ => false)) = true ∧
    ((exchangeInformationAboutAPerson cfgC6 bpX accTrue exOracleC6 worldC6 1 2 3).2.any
      (fun ev => match ev with
        | ExchangeEvent.created d => d.etype == "declaration"
        | _ => false)) = true ∧
    ((exchangeInformationAboutAPerson cfgC6 bpX accTrue exOracleC6 worldC6 1 2 3).2.all
      (fun ev => match ev with
        | ExchangeEvent.created d => !(d.etype == "declaration") || !(d.recipient == d.source)
        | _ => true)) = true := by
  refine ⟨?_, ?_, ?_⟩ <;> decide

/-- C6 witness: the amended theorem applied to the concrete exchange of
`worldC6`, at the statement ingestion by listener 2. -/
theorem statement_conveyance_reinforces_talker_witness :
    ∃ T : Nat, ∃ d : Evid,
      stmtC6.source = some T ∧ stmtC6.recipient = some 2 ∧
      ExchangeEvent.created d ∈
        (exchangeInformationAboutAPerson cfgC6 bpX accTrue exOracleC6 worldC6 1 2 3).2 ∧
      d.etype = "declaration" ∧ d.source = some T ∧ d.recipient = some 2 ∧
      ExchangeEvent.ingested T "first name" "Q" d ∈
        (exchangeInformationAboutAPerson cfgC6 bpX accTrue exOracleC6 worldC6 1 2 3).2 :=
  statement_conveyance_reinforces_talker cfgC6 bpX accTrue exOracleC6 worldC6 1 2 3
    2 "first name" "Q" stmtC6 (by decide) rfl

end Talktown
